import Mathlib

/-!
# Verification of the sales-dashboard import pipeline

Shallow embedding of `src/app.py` (Flask sales dashboard): the spreadsheet
normalization of `read_xls_from_gcs`, the full-replace import
`carregar_dados_do_gcs`, the export `dump_db_to_dataframe`, and the
single-record routes `excluir` and `adicionar`, over a pure model of the
`vendas` table.  The GCS fetch itself is replaced by the fetched table
(a `DataFrame` argument); pandas / Python string and numeric coercions are
modelled cell-by-cell.
-/

namespace GestaoVendas

/-! ### Python / pandas primitive coercions -/

/-- Characters removed by Python's `str.strip()` (ASCII whitespace). -/
def isPySpace (c : Char) : Bool :=
  c == ' ' || c == '\t' || c == '\n' || c == '\r' || c == '\x0b' || c == '\x0c'

/-- Drop elements satisfying `p` from both ends of a list. -/
def stripBoth (p : α → Bool) (l : List α) : List α :=
  ((l.dropWhile p).reverse.dropWhile p).reverse

/-- Python `str.strip()`: drop leading and trailing whitespace. -/
def pyStrip (s : String) : String :=
  ⟨stripBoth isPySpace s.data⟩

def digitVal (c : Char) : Nat := c.toNat - 48

def natOfDigits (l : List Char) : Nat :=
  l.foldl (fun a c => a * 10 + digitVal c) 0

/-- Parse a nonempty all-digit character list as a natural number. -/
def decDigits? (l : List Char) : Option Nat :=
  if l.isEmpty then none
  else if l.all Char.isDigit then some (natOfDigits l) else none

/-- Optional leading sign of a numeric literal. -/
def splitSign : List Char → Int × List Char
  | '-' :: t => (-1, t)
  | '+' :: t => (1, t)
  | l => (1, l)

/-- Model of `pd.to_numeric(x, errors="coerce")` on a string followed by
`astype(int)`: optional sign, decimal digits with an optional fractional
part; the fractional part is truncated toward zero.  `none` models the
coercion to NaN for non-numeric text. -/
def pdParseNum (s : String) : Option Int :=
  let sg := (splitSign (pyStrip s).data).1
  let l := (splitSign (pyStrip s).data).2
  match l.splitOn '.' with
  | [ip] => (decDigits? ip).map (fun n => sg * n)
  | [ip, fp] =>
    if (ip.all Char.isDigit && fp.all Char.isDigit) && !(ip.isEmpty && fp.isEmpty) then
      some (sg * natOfDigits ip)
    else none
  | _ => none

/-- Python `int(string)`: optional sign and decimal digits, surrounding
whitespace allowed; `none` models the raised `ValueError`. -/
def pyInt? (s : String) : Option Int :=
  let sg := (splitSign (pyStrip s).data).1
  let l := (splitSign (pyStrip s).data).2
  (decDigits? l).map (fun n => sg * n)

/-- One spreadsheet cell as seen through pandas: a string, an integer
number, or a missing value (NaN). -/
inductive Cell where
  | str (s : String)
  | int (n : Int)
  | nan
deriving DecidableEq

/-- Python `str(x)` / pandas `astype(str)` on one cell (NaN prints as
`"nan"`). -/
def Cell.pyStr : Cell → String
  | .str s => s
  | .int n => toString n
  | .nan => "nan"

/-- `pd.to_numeric(errors="coerce").fillna(0).astype(int)` on one cell. -/
def Cell.toNumericInt : Cell → Int
  | .str s => (pdParseNum s).getD 0
  | .int n => n
  | .nan => 0

/-- Whether `pd.to_numeric` parses the cell as a number (no coercion to
NaN, hence no `fillna(0)` replacement). -/
def Cell.numericParseable : Cell → Bool
  | .str s => (pdParseNum s).isSome
  | .int _ => true
  | .nan => false

/-- Python `int(x)` on one cell; `none` models a raised exception. -/
def Cell.pyIntCell? : Cell → Option Int
  | .str s => pyInt? s
  | .int n => some n
  | .nan => none

/-! ### Rows, DataFrames and the required schema -/

/-- A raw imported row: cells keyed by column name.  A key absent from the
association list reads as NaN, as a pandas row does for a missing value. -/
structure RawRow where
  cells : List (String × Cell)
deriving DecidableEq

def RawRow.get (r : RawRow) (c : String) : Cell :=
  ((r.cells.find? (fun p => p.1 == c)).map (fun p => p.2)).getD .nan

def RawRow.set (r : RawRow) (c : String) (v : Cell) : RawRow :=
  ⟨(c, v) :: r.cells.filter (fun p => p.1 != c)⟩

/-- A fetched table: column names plus rows, as `pd.read_excel` returns. -/
structure DataFrame where
  cols : List String
  rows : List RawRow
deriving DecidableEq

/-- The required import schema (`REQUIRED_COLS` in `app.py`). -/
def REQUIRED_COLS : List String := ["Produto", "Quantidade", "Categoria"]

/-- `REQUIRED_COLS - set(df.columns)` is empty. -/
def colsOK (df : DataFrame) : Bool :=
  REQUIRED_COLS.all (fun c => df.cols.contains c)

inductive ImportError where
  | schemaInvalid
  | typeError
deriving DecidableEq

/-- The three in-place column assignments of `read_xls_from_gcs`, on one
row: `Produto`/`Categoria` become trimmed strings, `Quantidade` the numeric
coercion (each assignment reads the original column). -/
def normalizeRow (r : RawRow) : RawRow :=
  ((r.set "Produto" (.str (pyStrip (r.get "Produto").pyStr))).set
      "Quantidade" (.int (r.get "Quantidade").toNumericInt)).set
    "Categoria" (.str (pyStrip (r.get "Categoria").pyStr))

/-- `read_xls_from_gcs`, from the fetched table onward: schema validation
then per-column normalization.  `schemaInvalid` models the raised
`ValueError` for missing required columns. -/
def read_xls (df : DataFrame) : Except ImportError DataFrame :=
  if colsOK df then .ok ⟨df.cols, df.rows.map normalizeRow⟩
  else .error .schemaInvalid

/-! ### The record store (`vendas` table) -/

/-- One persisted sales record (the `Venda` model). -/
structure Venda where
  id : Nat
  produto : String
  quantidade : Int
  categoria : String
deriving DecidableEq

def maxId (l : List Venda) : Nat := l.foldr (fun v a => max v.id a) 0

/-- The store: the rows of the `vendas` table. -/
structure Store where
  vendas : List Venda
deriving DecidableEq

def Store.empty : Store := ⟨[]⟩

/-- Insert one record; SQLite assigns the next integer primary key
(`max` existing id `+ 1`, starting at 1). -/
def Store.insert (s : Store) (p : String) (q : Int) (c : String) : Store :=
  ⟨s.vendas ++ [⟨maxId s.vendas + 1, p, q, c⟩]⟩

/-- The business fields of the store's records, in store order. -/
def Store.fields (s : Store) : List (String × Int × String) :=
  s.vendas.map (fun v => (v.produto, v.quantidade, v.categoria))

/-! ### The import reconciler `carregar_dados_do_gcs` -/

/-- The insert loop of `carregar_dados_do_gcs`: per row, build a `Venda`
from `str(row["Produto"])`, `int(row["Quantidade"])`,
`str(row["Categoria"])` and count the insert; a failing `int()` raises
(`typeError`). -/
def insertRows : Store → Nat → List RawRow → Except ImportError (Store × Nat)
  | s, n, [] => .ok (s, n)
  | s, n, r :: rest =>
    match (r.get "Quantidade").pyIntCell? with
    | none => .error .typeError
    | some q =>
      insertRows (s.insert (r.get "Produto").pyStr q (r.get "Categoria").pyStr) (n + 1) rest

/-- `carregar_dados_do_gcs`, from the fetched table onward: validate and
normalize via `read_xls`, then delete every record and insert one record
per row, returning the new store and the insert count. -/
def carregar_dados_do_gcs (df : DataFrame) (_s : Store) :
    Except ImportError (Store × Nat) :=
  match read_xls df with
  | .error e => .error e
  | .ok ndf =>
    match insertRows ⟨[]⟩ 0 ndf.rows with
    | .error e => .error e
    | .ok (s', n) => .ok (s', n)

/-- The `/carregar` route's effect on the store: on any raised error the
transaction is never committed, so the store is unchanged. -/
def carregarRun (df : DataFrame) (s : Store) : Store × Except ImportError Nat :=
  match carregar_dados_do_gcs df s with
  | .ok (s', n) => (s', .ok n)
  | .error e => (s, .error e)

/-! ### The export serializer `dump_db_to_dataframe` -/

/-- `Venda.query.order_by(Venda.id.asc())`. -/
def sortById (l : List Venda) : List Venda :=
  l.insertionSort (fun a b => a.id ≤ b.id)

/-- One exported record as a spreadsheet row. -/
def Venda.toRow (v : Venda) : RawRow :=
  ⟨[("Produto", .str v.produto), ("Quantidade", .int v.quantidade),
    ("Categoria", .str v.categoria)]⟩

/-- `dump_db_to_dataframe`.  The empty-store branch builds
`pd.DataFrame(columns=list(REQUIRED_COLS))`; `setOrder` is the iteration
order of the Python set `REQUIRED_COLS` (unspecified, some permutation of
the three names). -/
def dump_db_to_dataframe (setOrder : List String) (s : Store) : DataFrame :=
  let vs := sortById s.vendas
  if vs.isEmpty then ⟨setOrder, []⟩
  else ⟨["Produto", "Quantidade", "Categoria"], vs.map Venda.toRow⟩

/-! ### Single-record routes -/

inductive DeleteResult where
  | ok
  | notFound
deriving DecidableEq

/-- `db.session.delete(v)` for the first record with the given primary
key. -/
def removeFirstById (i : Nat) : List Venda → List Venda
  | [] => []
  | v :: t => if v.id = i then t else v :: removeFirstById i t

/-- The `/excluir/<id>` route: `Venda.query.get(id)`; `abort(404)` when
absent, else delete and commit. -/
def excluir (s : Store) (i : Nat) : Store × DeleteResult :=
  match s.vendas.find? (fun v => v.id == i) with
  | none => (s, .notFound)
  | some _ => (⟨removeFirstById i s.vendas⟩, .ok)

inductive AddResult where
  | redirect
  | badRequest
deriving DecidableEq

/-- The `/adicionar` route: strip the three form fields, reject empty
product/category, parse the quantity with `int()` and reject values below
1 (both as HTTP 400), else insert and commit. -/
def adicionar (s : Store) (produtoForm quantidadeForm categoriaForm : String) :
    Store × AddResult :=
  let produto := pyStrip produtoForm
  let quantidadeRaw := pyStrip quantidadeForm
  let categoria := pyStrip categoriaForm
  if produto = "" ∨ categoria = "" then (s, .badRequest)
  else
    match pyInt? quantidadeRaw with
    | none => (s, .badRequest)
    | some q =>
      if q < 1 then (s, .badRequest)
      else (s.insert produto q categoria, .redirect)

/-! ### Store states reachable through the application's operations -/

/-- Stores reachable from an empty database by successful imports
(restricted to sources satisfying `P`), adds and deletes.  Failed
operations leave the store unchanged, so they add no states. -/
inductive Reachable (P : DataFrame → Prop) : Store → Prop where
  | empty : Reachable P ⟨[]⟩
  | load {df s s' n} : Reachable P s → P df →
      carregarRun df s = (s', .ok n) → Reachable P s'
  | add {s pf qf cf s'} : Reachable P s →
      adicionar s pf qf cf = (s', .redirect) → Reachable P s'
  | del {s i s'} : Reachable P s →
      excluir s i = (s', .ok) → Reachable P s'

/-- The three business fields the reconciler produces for one raw row:
`Produto`/`Categoria` coerced to text and stripped, `Quantidade` coerced
numerically (composition of `read_xls`'s normalization with the insert
loop's `str`/`int` conversions). -/
def importVenda (r : RawRow) : String × Int × String :=
  (pyStrip (r.get "Produto").pyStr, ((r.get "Quantidade").toNumericInt,
    pyStrip (r.get "Categoria").pyStr))

/-! ### `str.strip()` is idempotent -/

theorem dropWhile_dropWhile (p : α → Bool) (l : List α) :
    (l.dropWhile p).dropWhile p = l.dropWhile p := by
  induction l with
  | nil => rfl
  | cons a t ih =>
    rw [List.dropWhile_cons]
    by_cases h : p a
    · rw [if_pos h]; exact ih
    · rw [if_neg h, List.dropWhile_cons, if_neg h]

theorem head?_dropWhile_eq_false {p : α → Bool} {l : List α} {a : α}
    (h : (l.dropWhile p).head? = some a) : p a = false := by
  have h2 := List.head?_dropWhile_not p l
  rw [h] at h2
  exact h2

theorem dropWhile_eq_self_of_head? {p : α → Bool} {l : List α}
    (h : ∀ a, l.head? = some a → p a = false) : l.dropWhile p = l := by
  cases l with
  | nil => rfl
  | cons a t => rw [List.dropWhile_cons, if_neg (by simp [h a rfl])]

theorem getLast?_dropWhile (p : α → Bool) (l : List α)
    (h : l.dropWhile p ≠ []) : (l.dropWhile p).getLast? = l.getLast? := by
  obtain ⟨t, ht⟩ := List.dropWhile_suffix p (l := l)
  conv_rhs => rw [← ht]
  rw [List.getLast?_append_of_ne_nil _ h]

theorem stripBoth_idem (p : α → Bool) (l : List α) :
    stripBoth p (stripBoth p l) = stripBoth p l := by
  unfold stripBoth
  set m := l.dropWhile p with hm
  set n := m.reverse.dropWhile p with hn
  have hA : n.reverse.dropWhile p = n.reverse := by
    by_cases he : n = []
    · simp [he]
    · apply dropWhile_eq_self_of_head?
      intro a ha
      rw [List.head?_reverse] at ha
      rw [hn] at ha he
      rw [getLast?_dropWhile p m.reverse he] at ha
      rw [List.getLast?_reverse] at ha
      rw [hm] at ha
      exact head?_dropWhile_eq_false ha
  rw [hA, List.reverse_reverse, hn, dropWhile_dropWhile]

theorem pyStrip_idem (s : String) : pyStrip (pyStrip s) = pyStrip s := by
  unfold pyStrip
  exact congrArg String.mk (stripBoth_idem isPySpace s.data)

/-- `int()` already ignores surrounding whitespace, so stripping first
changes nothing. -/
theorem pyInt?_pyStrip (s : String) : pyInt? (pyStrip s) = pyInt? s := by
  unfold pyInt?
  rw [pyStrip_idem]

/-! ### Association-list row access -/

theorem find?_filter_ne {c c' : String} (h : c' ≠ c) (l : List (String × Cell)) :
    (l.filter (fun p => p.1 != c)).find? (fun p => p.1 == c') =
      l.find? (fun p => p.1 == c') := by
  induction l with
  | nil => rfl
  | cons a t ih =>
    rw [List.filter_cons]
    by_cases ha : a.1 = c
    · have h2 : (a.1 == c') = false := by
        simp only [beq_eq_false_iff_ne]
        exact fun hc => h (hc.symm.trans ha)
      rw [if_neg (by simp [ha]), ih, List.find?_cons]
      simp [h2]
    · rw [if_pos (by simp [ha]), List.find?_cons, List.find?_cons]
      cases hb : (a.1 == c') with
      | true => simp [hb]
      | false => simp [hb, ih]

theorem get_set_same (r : RawRow) (c : String) (v : Cell) :
    (r.set c v).get c = v := by
  simp [RawRow.get, RawRow.set]

theorem get_set_other {c c' : String} (h : c' ≠ c) (r : RawRow) (v : Cell) :
    (r.set c v).get c' = r.get c' := by
  have h2 : (c == c') = false := by
    simp only [beq_eq_false_iff_ne]
    exact fun hc => h hc.symm
  simp only [RawRow.get, RawRow.set, List.find?_cons, h2, find?_filter_ne h]

theorem normalizeRow_produto (r : RawRow) :
    (normalizeRow r).get "Produto" = .str (pyStrip (r.get "Produto").pyStr) := by
  unfold normalizeRow
  rw [get_set_other (by decide), get_set_other (by decide), get_set_same]

theorem normalizeRow_quantidade (r : RawRow) :
    (normalizeRow r).get "Quantidade" = .int (r.get "Quantidade").toNumericInt := by
  unfold normalizeRow
  rw [get_set_other (by decide), get_set_same]

theorem normalizeRow_categoria (r : RawRow) :
    (normalizeRow r).get "Categoria" = .str (pyStrip (r.get "Categoria").pyStr) := by
  unfold normalizeRow
  rw [get_set_same]

/-! ### The insert loop on normalized rows -/

theorem fields_insert (s : Store) (p : String) (q : Int) (c : String) :
    (s.insert p q c).fields = s.fields ++ [(p, q, c)] := by
  simp [Store.insert, Store.fields]

theorem insertRows_norm (rows : List RawRow) : ∀ (s : Store) (n : Nat),
    ∃ s', insertRows s n (rows.map normalizeRow) = .ok (s', n + rows.length) ∧
      s'.fields = s.fields ++ rows.map importVenda := by
  induction rows with
  | nil => exact fun s n => ⟨s, by simp [insertRows], by simp⟩
  | cons r t ih =>
    intro s n
    obtain ⟨s', h1, h2⟩ :=
      ih (s.insert (pyStrip (r.get "Produto").pyStr) (r.get "Quantidade").toNumericInt
        (pyStrip (r.get "Categoria").pyStr)) (n + 1)
    refine ⟨s', ?_, ?_⟩
    · show insertRows s n (normalizeRow r :: t.map normalizeRow) = _
      simp only [insertRows, normalizeRow_quantidade, Cell.pyIntCell?]
      rw [normalizeRow_produto, normalizeRow_categoria]
      show insertRows (s.insert (pyStrip (r.get "Produto").pyStr)
        (r.get "Quantidade").toNumericInt (pyStrip (r.get "Categoria").pyStr)) (n + 1)
        (t.map normalizeRow) = _
      rw [h1]
      simp only [Except.ok.injEq, Prod.mk.injEq, List.length_cons]
      exact ⟨trivial, by omega⟩
    · rw [h2, fields_insert]
      simp [importVenda]

theorem carregarRun_ok (df : DataFrame) (s : Store) (h : colsOK df = true) :
    ∃ s', carregarRun df s = (s', .ok df.rows.length) ∧
      s'.fields = df.rows.map importVenda := by
  obtain ⟨s', h1, h2⟩ := insertRows_norm df.rows ⟨[]⟩ 0
  refine ⟨s', ?_, ?_⟩
  · simp only [carregarRun, carregar_dados_do_gcs, read_xls, h, if_true]
    rw [show (0 : Nat) + df.rows.length = df.rows.length from by omega] at h1
    rw [h1]
  · rw [h2]
    simp [Store.fields]

/-! ## Claim C1: the import inserts one normalized record per row -/

/-- C1: for every fetched table whose columns include `Produto`,
`Quantidade` and `Categoria`, the import reconciler
(`carregar_dados_do_gcs`) leaves the store with exactly one record per
input row, in input row order, where product and category are the input
values coerced to text and stripped of surrounding whitespace and the
quantity is the numeric coercion of the input value; it returns the
number of rows inserted. -/
theorem import_replaces_store_with_normalized_rows (df : DataFrame) (s : Store)
    (h : colsOK df = true) :
    (carregarRun df s).2 = .ok df.rows.length ∧
      (carregarRun df s).1.fields = df.rows.map importVenda := by
  obtain ⟨s', h1, h2⟩ := carregarRun_ok df s h
  rw [h1]
  exact ⟨rfl, h2⟩

/-- A concrete fetched table: required columns plus an ignored extra one,
whitespace to trim, a numeric product and a missing quantity. -/
def dfSample : DataFrame :=
  ⟨["Produto", "Quantidade", "Categoria", "Extra"],
   [⟨[("Produto", .str " Mouse "), ("Quantidade", .str "7"),
      ("Categoria", .str " Periféricos "), ("Extra", .int 9)]⟩,
    ⟨[("Produto", .int 3), ("Quantidade", .nan), ("Categoria", .str "X")]⟩]⟩

theorem import_replaces_store_with_normalized_rows_witness :
    (carregarRun dfSample Store.empty).2 = .ok 2 ∧
      (carregarRun dfSample Store.empty).1.fields =
        [("Mouse", (7 : Int), "Periféricos"), ("3", (0 : Int), "X")] := by
  have h := import_replaces_store_with_normalized_rows dfSample Store.empty (by decide)
  refine ⟨h.1, ?_⟩
  rw [h.2]
  decide

/-! ## Claim C2: a missing required column aborts the import untouched -/

/-- C2: for every fetched table missing at least one required column,
the import fails with the schema error (raised by `read_xls` before any
store mutation) and the store is left exactly as it was. -/
theorem import_missing_column_fails_schema (df : DataFrame) (s : Store)
    (h : colsOK df = false) :
    read_xls df = .error .schemaInvalid ∧
      carregarRun df s = (s, .error .schemaInvalid) := by
  have hr : read_xls df = .error .schemaInvalid := by simp [read_xls, h]
  exact ⟨hr, by simp [carregarRun, carregar_dados_do_gcs, hr]⟩

/-- A fetched table lacking the `Quantidade` column. -/
def dfNoQuantidade : DataFrame :=
  ⟨["Produto", "Categoria"], [⟨[("Produto", .str "A"), ("Categoria", .str "B")]⟩]⟩

theorem import_missing_column_fails_schema_witness :
    carregarRun dfNoQuantidade ⟨[⟨1, "P", 2, "C"⟩]⟩ =
      (⟨[⟨1, "P", 2, "C"⟩]⟩, .error .schemaInvalid) :=
  (import_missing_column_fails_schema dfNoQuantidade ⟨[⟨1, "P", 2, "C"⟩]⟩ (by decide)).2

/-! ## Claim C3: unparseable quantities coerce to 0 -/

theorem toNumericInt_of_unparseable (c : Cell) (h : c.numericParseable = false) :
    c.toNumericInt = 0 := by
  cases c with
  | str s =>
    simp only [Cell.numericParseable] at h
    cases hp : pdParseNum s with
    | none => simp [Cell.toNumericInt, hp]
    | some n => rw [hp] at h; simp at h
  | int n => simp [Cell.numericParseable] at h
  | nan => rfl

/-- C3: any input row whose `Quantidade` value cannot be parsed as a
number produces a record whose quantity is exactly 0; the row itself is
still imported (it occupies position `i` of the resulting store). -/
theorem unparseable_quantity_becomes_zero (df : DataFrame) (s : Store) (i : Nat)
    (h : colsOK df = true) (hi : i < df.rows.length)
    (hq : ((df.rows.getD i ⟨[]⟩).get "Quantidade").numericParseable = false) :
    ((carregarRun df s).1.fields.getD i ("", 0, "")).2.1 = 0 := by
  obtain ⟨s', h1, h2⟩ := carregarRun_ok df s h
  rw [h1]
  show (s'.fields.getD i ("", 0, "")).2.1 = 0
  rw [h2, List.getD_eq_getElem?_getD, List.getElem?_map, List.getElem?_eq_getElem hi]
  show (importVenda df.rows[i]).2.1 = 0
  have hrow : df.rows[i] = df.rows.getD i ⟨[]⟩ := by
    rw [List.getD_eq_getElem?_getD, List.getElem?_eq_getElem hi]
    rfl
  rw [hrow]
  exact toNumericInt_of_unparseable _ hq

/-- A fetched table whose single row has non-numeric text in
`Quantidade`. -/
def dfBadQty : DataFrame :=
  ⟨["Produto", "Quantidade", "Categoria"],
   [⟨[("Produto", .str "Cabo"), ("Quantidade", .str "muitos"),
      ("Categoria", .str "Acessórios")]⟩]⟩

theorem unparseable_quantity_becomes_zero_witness :
    ((carregarRun dfBadQty ⟨[]⟩).1.fields.getD 0 ("", 0, "")).2.1 = 0 :=
  unparseable_quantity_becomes_zero dfBadQty ⟨[]⟩ 0 (by decide) (by decide) (by decide)

/-! ### Inversions of the operations -/

theorem carregarRun_ok_inv {df : DataFrame} {s s' : Store} {n : Nat}
    (h : carregarRun df s = (s', .ok n)) :
    colsOK df = true ∧ s'.fields = df.rows.map importVenda ∧ n = df.rows.length := by
  cases hc : colsOK df with
  | false => simp [carregarRun, carregar_dados_do_gcs, read_xls, hc] at h
  | true =>
    obtain ⟨s'', h1, h2⟩ := carregarRun_ok df s hc
    rw [h1] at h
    simp only [Prod.mk.injEq, Except.ok.injEq] at h
    exact ⟨rfl, h.1 ▸ h2, h.2.symm⟩

theorem excluir_ok_inv {s : Store} {i : Nat} {s' : Store}
    (h : excluir s i = (s', .ok)) :
    s'.vendas = removeFirstById i s.vendas := by
  unfold excluir at h
  cases hf : s.vendas.find? (fun v => v.id == i) with
  | none => simp only [hf] at h; simp at h
  | some w =>
    simp only [hf] at h
    exact (congrArg (fun x => Store.vendas (Prod.fst x)) h).symm

/-! ### Inversion of a successful add -/

theorem adicionar_ok_inv {s : Store} {pf qf cf : String} {s' : Store}
    (h : adicionar s pf qf cf = (s', .redirect)) :
    ∃ q, pyInt? (pyStrip qf) = some q ∧ 1 ≤ q ∧
      pyStrip pf ≠ "" ∧ pyStrip cf ≠ "" ∧
      s' = s.insert (pyStrip pf) q (pyStrip cf) := by
  simp only [adicionar] at h
  by_cases h1 : pyStrip pf = "" ∨ pyStrip cf = ""
  · rw [if_pos h1] at h
    simp at h
  · rw [if_neg h1] at h
    cases hq : pyInt? (pyStrip qf) with
    | none => simp only [hq] at h; simp at h
    | some q =>
      simp only [hq] at h
      by_cases h2 : q < 1
      · rw [if_pos h2] at h; simp at h
      · rw [if_neg h2] at h
        refine ⟨q, rfl, by omega, fun he => h1 (Or.inl he), fun he => h1 (Or.inr he), ?_⟩
        exact (congrArg Prod.fst h).symm

/-! ## Claim C8: invalid add input is rejected, store untouched -/

/-- C8: an add request with an empty product, an empty category, or a
quantity that does not parse as an integer greater than or equal to 1,
fails with a validation error (HTTP 400) and inserts nothing. -/
theorem add_invalid_input_rejected (s : Store) (pf qf cf : String)
    (h : pf = "" ∨ cf = "" ∨ (∀ q, pyInt? qf = some q → q < 1)) :
    adicionar s pf qf cf = (s, .badRequest) := by
  simp only [adicionar]
  rcases h with h1 | h1 | h1
  · rw [if_pos (Or.inl (by rw [h1]; rfl))]
  · rw [if_pos (Or.inr (by rw [h1]; rfl))]
  · by_cases h2 : pyStrip pf = "" ∨ pyStrip cf = ""
    · rw [if_pos h2]
    · rw [if_neg h2]
      cases hq : pyInt? (pyStrip qf) with
      | none => simp only [hq]
      | some q =>
        simp only [hq]
        rw [if_pos (h1 q ((pyInt?_pyStrip qf) ▸ hq))]

theorem add_invalid_input_rejected_witness :
    adicionar ⟨[⟨1, "P", 2, "C"⟩]⟩ "Mouse" "0" "Cat" =
      (⟨[⟨1, "P", 2, "C"⟩]⟩, .badRequest) :=
  add_invalid_input_rejected ⟨[⟨1, "P", 2, "C"⟩]⟩ "Mouse" "0" "Cat"
    (Or.inr (Or.inr (fun q hq => by
      rw [show pyInt? "0" = some 0 from by decide] at hq
      injection hq with h
      omega)))

/-! ## Claim C9: delete removes exactly the addressed record -/

theorem removeFirstById_eq_filter (i : Nat) :
    ∀ l : List Venda, (l.map Venda.id).Nodup →
      removeFirstById i l = l.filter (fun w => w.id != i) := by
  intro l
  induction l with
  | nil => intro _; rfl
  | cons v t ih =>
    intro hnd
    rw [List.map_cons, List.nodup_cons] at hnd
    rw [removeFirstById, List.filter_cons]
    by_cases hv : v.id = i
    · rw [if_pos hv, if_neg (by simp [hv])]
      rw [List.filter_eq_self.mpr]
      intro w hw
      simp only [bne_iff_ne]
      intro hwi
      apply hnd.1
      rw [hv, ← hwi]
      exact List.mem_map_of_mem Venda.id hw
    · rw [if_neg hv, if_pos (by simp [hv]), ih hnd.2]

/-- C9: deleting an id that matches no record fails with `NotFound` and
leaves the store unchanged; deleting an id that does match succeeds and
removes exactly that record, keeping every other record (stated under the
primary-key uniqueness of ids). -/
theorem delete_by_id_exact (s : Store) (i : Nat) :
    ((∀ v ∈ s.vendas, v.id ≠ i) → excluir s i = (s, .notFound)) ∧
      ((s.vendas.map Venda.id).Nodup → ∀ v ∈ s.vendas, v.id = i →
        excluir s i = (⟨s.vendas.filter (fun w => w.id != i)⟩, .ok)) := by
  constructor
  · intro hno
    have hf : s.vendas.find? (fun v => v.id == i) = none := by
      rw [List.find?_eq_none]
      intro v hv
      simp only [beq_iff_eq]
      exact hno v hv
    simp [excluir, hf]
  · intro hnd v hv hvi
    cases hf : s.vendas.find? (fun v => v.id == i) with
    | none =>
      rw [List.find?_eq_none] at hf
      exact absurd (by simp [hvi] : ((fun v => v.id == i) v) = true)
        (by simpa using hf v hv)
    | some w =>
      simp only [excluir, hf]
      rw [removeFirstById_eq_filter i s.vendas hnd]

theorem delete_by_id_exact_witness :
    excluir ⟨[⟨1, "A", 2, "X"⟩, ⟨2, "B", 3, "Y"⟩]⟩ 5 =
        (⟨[⟨1, "A", 2, "X"⟩, ⟨2, "B", 3, "Y"⟩]⟩, .notFound) ∧
      excluir ⟨[⟨1, "A", 2, "X"⟩, ⟨2, "B", 3, "Y"⟩]⟩ 1 =
        (⟨[⟨2, "B", 3, "Y"⟩]⟩, .ok) := by
  constructor
  · exact (delete_by_id_exact ⟨[⟨1, "A", 2, "X"⟩, ⟨2, "B", 3, "Y"⟩]⟩ 5).1
      (by decide)
  · have h := (delete_by_id_exact ⟨[⟨1, "A", 2, "X"⟩, ⟨2, "B", 3, "Y"⟩]⟩ 1).2
      (by decide) ⟨1, "A", 2, "X"⟩ (by decide) rfl
    rw [h]
    decide

/-! ## Claim C10: the add route trims before validating and storing -/

/-- C10: the add operation strips surrounding whitespace from the three
submitted values before validating and storing; a whitespace-only product
or category is rejected as empty, the stored quantity is parsed from the
stripped text, and a record stored by this route carries no surrounding
whitespace in its product or category. -/
theorem add_trims_before_validation_and_store (s : Store) (pf qf cf : String) :
    ((pyStrip pf = "" ∨ pyStrip cf = "") → adicionar s pf qf cf = (s, .badRequest)) ∧
      (∀ s', adicionar s pf qf cf = (s', .redirect) →
        ∃ q, pyInt? (pyStrip qf) = some q ∧ 1 ≤ q ∧
          s'.vendas = s.vendas ++ [⟨maxId s.vendas + 1, pyStrip pf, q, pyStrip cf⟩] ∧
          pyStrip (pyStrip pf) = pyStrip pf ∧ pyStrip (pyStrip cf) = pyStrip cf) := by
  constructor
  · intro h1
    simp only [adicionar]
    rw [if_pos h1]
  · intro s' h
    obtain ⟨q, hq, hq1, _, _, hs⟩ := adicionar_ok_inv h
    exact ⟨q, hq, hq1, by rw [hs]; rfl, pyStrip_idem pf, pyStrip_idem cf⟩

theorem add_trims_before_validation_and_store_witness :
    adicionar ⟨[]⟩ "   " "5" "Cat" = (⟨[]⟩, .badRequest) ∧
      ∃ q, pyInt? (pyStrip " 5 ") = some q ∧ 1 ≤ q ∧
        (⟨[⟨1, "Mouse", 5, "Cat"⟩]⟩ : Store).vendas =
          (⟨[]⟩ : Store).vendas ++
            [⟨maxId (⟨[]⟩ : Store).vendas + 1, pyStrip " Mouse ", q, pyStrip " Cat "⟩] ∧
        pyStrip (pyStrip " Mouse ") = pyStrip " Mouse " ∧
        pyStrip (pyStrip " Cat ") = pyStrip " Cat " := by
  have h := add_trims_before_validation_and_store (⟨[]⟩ : Store) "   " "5" "Cat"
  have h2 := add_trims_before_validation_and_store (⟨[]⟩ : Store) " Mouse " " 5 " " Cat "
  exact ⟨h.1 (Or.inl (by decide)), h2.2 ⟨[⟨1, "Mouse", 5, "Cat"⟩]⟩ (by decide)⟩

/-! ### Store invariants preserved by the operations -/

/-- The ids along the store's list are strictly increasing. -/
def IdsSorted (s : Store) : Prop :=
  List.Pairwise (fun a b => a.id < b.id) s.vendas

/-- Every record's text fields carry no surrounding whitespace. -/
def TrimmedFields (s : Store) : Prop :=
  ∀ v ∈ s.vendas, pyStrip v.produto = v.produto ∧ pyStrip v.categoria = v.categoria

theorem mem_id_le_maxId {v : Venda} : ∀ {l : List Venda}, v ∈ l → v.id ≤ maxId l := by
  intro l
  induction l with
  | nil => intro h; cases h
  | cons a t ih =>
    intro h
    show v.id ≤ max a.id (maxId t)
    cases h with
    | head => exact Nat.le_max_left _ _
    | tail _ hm => exact le_trans (ih hm) (Nat.le_max_right _ _)

theorem idsSorted_insert {s : Store} (h : IdsSorted s) (p : String) (q : Int)
    (c : String) : IdsSorted (s.insert p q c) := by
  unfold IdsSorted Store.insert
  rw [List.pairwise_append]
  refine ⟨h, List.pairwise_singleton _ _, ?_⟩
  intro a ha b hb
  simp only [List.mem_singleton] at hb
  subst hb
  exact Nat.lt_succ_of_le (mem_id_le_maxId ha)

theorem trimmedFields_insert {s : Store} (h : TrimmedFields s) {p c : String}
    (hp : pyStrip p = p) (hc : pyStrip c = c) (q : Int) :
    TrimmedFields (s.insert p q c) := by
  intro v hv
  rcases List.mem_append.mp hv with h1 | h1
  · exact h v h1
  · simp only [List.mem_singleton] at h1
    subst h1
    exact ⟨hp, hc⟩

theorem removeFirstById_sublist (i : Nat) : ∀ l : List Venda,
    List.Sublist (removeFirstById i l) l := by
  intro l
  induction l with
  | nil => exact List.Sublist.refl _
  | cons v t ih =>
    rw [removeFirstById]
    by_cases hv : v.id = i
    · rw [if_pos hv]; exact List.sublist_cons_self v t
    · rw [if_neg hv]; exact List.Sublist.cons₂ v ih

theorem insertRows_invariant (rows : List RawRow) :
    ∀ (s : Store) (n : Nat) (s' : Store) (n' : Nat),
      insertRows s n (rows.map normalizeRow) = .ok (s', n') →
      IdsSorted s → TrimmedFields s → IdsSorted s' ∧ TrimmedFields s' := by
  induction rows with
  | nil =>
    intro s n s' n' h hs ht
    simp only [List.map_nil, insertRows, Except.ok.injEq, Prod.mk.injEq] at h
    rw [← h.1]
    exact ⟨hs, ht⟩
  | cons r t ih =>
    intro s n s' n' h hs ht
    rw [List.map_cons] at h
    simp only [insertRows, normalizeRow_quantidade, Cell.pyIntCell?] at h
    apply ih _ _ _ _ h
    · exact idsSorted_insert hs _ _ _
    · refine trimmedFields_insert ht ?_ ?_ _
      · rw [normalizeRow_produto]; exact pyStrip_idem _
      · rw [normalizeRow_categoria]; exact pyStrip_idem _

theorem reachable_invariant {P : DataFrame → Prop} {s : Store}
    (h : Reachable P s) : IdsSorted s ∧ TrimmedFields s := by
  induction h with
  | empty =>
    exact ⟨List.Pairwise.nil, fun v hv => absurd hv (List.not_mem_nil v)⟩
  | @load df s0 s' n hr hp hc ih =>
    cases hcol : colsOK df with
    | false => simp [carregarRun, carregar_dados_do_gcs, read_xls, hcol] at hc
    | true =>
      cases hins : insertRows ⟨[]⟩ 0 (df.rows.map normalizeRow) with
      | error e =>
        simp [carregarRun, carregar_dados_do_gcs, read_xls, hcol, hins] at hc
      | ok p =>
        obtain ⟨s'', n''⟩ := p
        have hinv := insertRows_invariant df.rows ⟨[]⟩ 0 s'' n'' hins
          List.Pairwise.nil (fun v hv => absurd hv (List.not_mem_nil v))
        simp only [carregarRun, carregar_dados_do_gcs, read_xls, hcol, if_true, hins,
          Prod.mk.injEq] at hc
        rw [← hc.1]
        exact hinv
  | @add s0 pf qf cf s' hr ha ih =>
    obtain ⟨q, _, _, _, _, hs⟩ := adicionar_ok_inv ha
    rw [hs]
    exact ⟨idsSorted_insert ih.1 _ _ _,
      trimmedFields_insert ih.2 (pyStrip_idem _) (pyStrip_idem _) _⟩
  | @del s0 i s' hr he ih =>
    have hv := excluir_ok_inv he
    have hsub : List.Sublist s'.vendas s0.vendas :=
      hv ▸ removeFirstById_sublist i s0.vendas
    exact ⟨List.Pairwise.sublist hsub ih.1, fun v hmem => ih.2 v (hsub.subset hmem)⟩

/-! ## Claim C4: the non-negativity invariant (corrected) -/

/-- A source all of whose quantity cells coerce to non-negative values. -/
def NonNegSource (df : DataFrame) : Prop :=
  ∀ r ∈ df.rows, 0 ≤ (r.get "Quantidade").toNumericInt

/-- A fetched table carrying a negative quantity. -/
def dfNeg : DataFrame :=
  ⟨["Produto", "Quantidade", "Categoria"],
   [⟨[("Produto", .str "Mouse"), ("Quantidade", .int (-5)), ("Categoria", .str "Per")]⟩]⟩

/-- C4 as stated fails on the code: the import coerces missing or
unparseable quantities to 0 but keeps negative numeric values as they
are, so a reachable store can hold a record with a negative quantity. -/
theorem import_can_persist_negative_quantity :
    carregarRun dfNeg ⟨[]⟩ = (⟨[⟨1, "Mouse", -5, "Per"⟩]⟩, .ok 1) ∧
      Reachable (fun _ => True) ⟨[⟨1, "Mouse", -5, "Per"⟩]⟩ ∧
      ∃ v, v ∈ (⟨[⟨1, "Mouse", -5, "Per"⟩]⟩ : Store).vendas ∧ v.quantidade < 0 := by
  have hload : carregarRun dfNeg ⟨[]⟩ = (⟨[⟨1, "Mouse", -5, "Per"⟩]⟩, .ok 1) := by rfl
  exact ⟨hload, Reachable.load Reachable.empty trivial hload,
    ⟨⟨1, "Mouse", -5, "Per"⟩, by decide, by decide⟩⟩

/-- C4 amended: every persisted record always has its three business
fields present (they are total fields of `Venda`; `quantidade` is an
integer, never null), and as long as every imported source's quantity
cells coerce to non-negative values — in particular, invalid or missing
quantities, which coerce to 0 — every persisted quantity is a
non-negative integer.  (A negative numeric input is stored as-is, which
is the sole failure of the original claim.) -/
theorem store_quantities_nonneg_for_nonneg_sources {s : Store}
    (h : Reachable NonNegSource s) : ∀ v ∈ s.vendas, 0 ≤ v.quantidade := by
  induction h with
  | empty => intro v hv; cases hv
  | @load df s0 s' n hr hp hc ih =>
    intro v hv
    obtain ⟨_, hfields, _⟩ := carregarRun_ok_inv hc
    have hm : (v.produto, v.quantidade, v.categoria) ∈ s'.fields :=
      List.mem_map_of_mem _ hv
    rw [hfields] at hm
    obtain ⟨r, hrmem, heq⟩ := List.mem_map.mp hm
    have hq : (r.get "Quantidade").toNumericInt = v.quantidade :=
      congrArg (fun x => x.2.1) heq
    rw [← hq]
    exact hp r hrmem
  | @add s0 pf qf cf s' hr ha ih =>
    intro v hv
    obtain ⟨q, _, hq1, _, _, hs⟩ := adicionar_ok_inv ha
    rw [hs] at hv
    rcases List.mem_append.mp hv with h1 | h1
    · exact ih v h1
    · simp only [List.mem_singleton] at h1
      subst h1
      exact le_trans (by omega) hq1
  | @del s0 i s' hr he ih =>
    intro v hv
    have hvv := excluir_ok_inv he
    have hsub : List.Sublist s'.vendas s0.vendas :=
      hvv ▸ removeFirstById_sublist i s0.vendas
    exact ih v (hsub.subset hv)

theorem store_quantities_nonneg_witness :
    0 ≤ (Venda.mk 1 "Mouse" 3 "Per").quantidade := by
  have hadd : adicionar ⟨[]⟩ "Mouse" "3" "Per" =
      (⟨[⟨1, "Mouse", 3, "Per"⟩]⟩, .redirect) := by rfl
  have hreach : Reachable NonNegSource ⟨[⟨1, "Mouse", 3, "Per"⟩]⟩ :=
    Reachable.add Reachable.empty hadd
  exact store_quantities_nonneg_for_nonneg_sources hreach ⟨1, "Mouse", 3, "Per"⟩
    (by decide)

/-! ## Claim C5: shape of the export serializer's output -/

instance : IsTotal Venda (fun a b => a.id ≤ b.id) :=
  ⟨fun a b => Nat.le_total a.id b.id⟩

instance : IsTrans Venda (fun a b => a.id ≤ b.id) :=
  ⟨fun _ _ _ h1 h2 => Nat.le_trans h1 h2⟩

/-- C5: for every store state (and any iteration order of the Python set
of required columns), the export serializer emits one row per record,
ordered by record id ascending; when the store is nonempty the columns
are exactly `Produto, Quantidade, Categoria` in that order, and the empty
store yields a zero-row table whose header still contains the three
required columns. -/
theorem export_has_canonical_shape (s : Store) (setOrder : List String)
    (hperm : setOrder.Perm REQUIRED_COLS) :
    (dump_db_to_dataframe setOrder s).rows = (sortById s.vendas).map Venda.toRow ∧
      (sortById s.vendas).Perm s.vendas ∧
      List.Sorted (fun a b => a.id ≤ b.id) (sortById s.vendas) ∧
      (s.vendas ≠ [] →
        (dump_db_to_dataframe setOrder s).cols = ["Produto", "Quantidade", "Categoria"]) ∧
      (s.vendas = [] → (dump_db_to_dataframe setOrder s).rows = [] ∧
        ∀ c ∈ REQUIRED_COLS, c ∈ (dump_db_to_dataframe setOrder s).cols) := by
  have hp : (sortById s.vendas).Perm s.vendas := List.perm_insertionSort _ _
  have hs : List.Sorted (fun a b => a.id ≤ b.id) (sortById s.vendas) :=
    List.sorted_insertionSort _ _
  by_cases he : s.vendas = []
  · have hsor : sortById s.vendas = [] := by rw [he]; rfl
    have hd : dump_db_to_dataframe setOrder s = ⟨setOrder, []⟩ := by
      simp [dump_db_to_dataframe, hsor]
    rw [hd]
    exact ⟨by rw [hsor]; rfl, hp, hs, fun hne => absurd he hne,
      fun _ => ⟨rfl, fun c hc => hperm.mem_iff.mpr hc⟩⟩
  · have hie : (sortById s.vendas).isEmpty = false := by
      cases hso : sortById s.vendas with
      | nil =>
        exact absurd (List.length_eq_zero.mp
          (by rw [← List.length_insertionSort (fun a b => a.id ≤ b.id) s.vendas]
              show (sortById s.vendas).length = 0
              rw [hso]
              rfl)) he
      | cons a t => rfl
    have hd : dump_db_to_dataframe setOrder s =
        ⟨["Produto", "Quantidade", "Categoria"], (sortById s.vendas).map Venda.toRow⟩ := by
      simp [dump_db_to_dataframe, hie]
    rw [hd]
    exact ⟨rfl, hp, hs, fun _ => rfl, fun hnil => absurd hnil he⟩

theorem export_has_canonical_shape_witness :
    (dump_db_to_dataframe ["Quantidade", "Produto", "Categoria"]
        ⟨[⟨2, "B", 3, "Y"⟩, ⟨1, "A", 2, "X"⟩]⟩).rows =
        (sortById [⟨2, "B", 3, "Y"⟩, ⟨1, "A", 2, "X"⟩]).map Venda.toRow ∧
      (dump_db_to_dataframe ["Quantidade", "Produto", "Categoria"]
        ⟨[⟨2, "B", 3, "Y"⟩, ⟨1, "A", 2, "X"⟩]⟩).cols =
        ["Produto", "Quantidade", "Categoria"] ∧
      (dump_db_to_dataframe ["Quantidade", "Produto", "Categoria"] ⟨[]⟩).rows = [] := by
  have h := export_has_canonical_shape ⟨[⟨2, "B", 3, "Y"⟩, ⟨1, "A", 2, "X"⟩]⟩
    ["Quantidade", "Produto", "Categoria"] (by decide)
  have h0 := export_has_canonical_shape ⟨[]⟩
    ["Quantidade", "Produto", "Categoria"] (by decide)
  exact ⟨h.1, h.2.2.2.1 (by decide), (h0.2.2.2.2 rfl).1⟩

/-! ## Claim C6: export-then-reimport round-trip -/

theorem importVenda_toRow (v : Venda) :
    importVenda v.toRow = (pyStrip v.produto, (v.quantidade, pyStrip v.categoria)) := rfl

/-- C6: for every store state the application can reach, serialising the
store and feeding the result back into the import reconciler succeeds and
reproduces the same product, quantity and category values in the same
order (ids are reassigned). -/
theorem export_reimport_roundtrip (s : Store) (setOrder : List String)
    (h1 : Reachable (fun _ => True) s) (h2 : setOrder.Perm REQUIRED_COLS) :
    (carregarRun (dump_db_to_dataframe setOrder s) s).2 = .ok s.vendas.length ∧
      (carregarRun (dump_db_to_dataframe setOrder s) s).1.fields = s.fields := by
  obtain ⟨hsort, htrim⟩ := reachable_invariant h1
  have hsid : sortById s.vendas = s.vendas :=
    List.Sorted.insertionSort_eq (hsort.imp (fun h => le_of_lt h))
  by_cases he : s.vendas = []
  · have hsor : sortById s.vendas = [] := by rw [he]; rfl
    have hd : dump_db_to_dataframe setOrder s = ⟨setOrder, []⟩ := by
      simp [dump_db_to_dataframe, hsor]
    have hcols : colsOK ⟨setOrder, []⟩ = true := by
      unfold colsOK
      rw [List.all_eq_true]
      intro c hc
      exact List.elem_iff.mpr (h2.mem_iff.mpr hc)
    obtain ⟨s', hh1, hh2⟩ := carregarRun_ok ⟨setOrder, []⟩ s hcols
    rw [hd, hh1]
    refine ⟨by rw [he]; rfl, ?_⟩
    show s'.fields = s.fields
    rw [hh2]
    simp [Store.fields, he]
  · have hie : s.vendas.isEmpty = false := by
      cases hv : s.vendas with
      | nil => exact absurd hv he
      | cons a t => rfl
    have hd : dump_db_to_dataframe setOrder s =
        ⟨["Produto", "Quantidade", "Categoria"], s.vendas.map Venda.toRow⟩ := by
      simp [dump_db_to_dataframe, hsid, hie]
    have hcols : colsOK
        ⟨["Produto", "Quantidade", "Categoria"], s.vendas.map Venda.toRow⟩ = true := rfl
    obtain ⟨s', hh1, hh2⟩ := carregarRun_ok _ s hcols
    rw [hd, hh1]
    constructor
    · show Except.ok (s.vendas.map Venda.toRow).length = Except.ok s.vendas.length
      rw [List.length_map]
    · show s'.fields = s.fields
      rw [hh2]
      show (s.vendas.map Venda.toRow).map importVenda = s.fields
      rw [List.map_map]
      apply List.map_congr_left
      intro v hv
      show importVenda v.toRow = (v.produto, (v.quantidade, v.categoria))
      rw [importVenda_toRow, (htrim v hv).1, (htrim v hv).2]

theorem export_reimport_roundtrip_witness :
    (carregarRun (dump_db_to_dataframe REQUIRED_COLS ⟨[⟨1, "A", 2, "X"⟩, ⟨2, "B", 3, "Y"⟩]⟩)
        ⟨[⟨1, "A", 2, "X"⟩, ⟨2, "B", 3, "Y"⟩]⟩).2 = .ok 2 ∧
      (carregarRun (dump_db_to_dataframe REQUIRED_COLS ⟨[⟨1, "A", 2, "X"⟩, ⟨2, "B", 3, "Y"⟩]⟩)
        ⟨[⟨1, "A", 2, "X"⟩, ⟨2, "B", 3, "Y"⟩]⟩).1.fields =
        [("A", 2, "X"), ("B", 3, "Y")] := by
  have ha1 : adicionar ⟨[]⟩ "A" "2" "X" = (⟨[⟨1, "A", 2, "X"⟩]⟩, .redirect) := by rfl
  have ha2 : adicionar ⟨[⟨1, "A", 2, "X"⟩]⟩ "B" "3" "Y" =
      (⟨[⟨1, "A", 2, "X"⟩, ⟨2, "B", 3, "Y"⟩]⟩, .redirect) := by rfl
  have hreach : Reachable (fun _ => True) ⟨[⟨1, "A", 2, "X"⟩, ⟨2, "B", 3, "Y"⟩]⟩ :=
    Reachable.add (Reachable.add Reachable.empty ha1) ha2
  have h := export_reimport_roundtrip ⟨[⟨1, "A", 2, "X"⟩, ⟨2, "B", 3, "Y"⟩]⟩
    REQUIRED_COLS hreach (List.Perm.refl _)
  refine ⟨h.1, ?_⟩
  rw [h.2]
  rfl

/-! ## Claim C7: running the import twice with the same source -/

/-- C7: re-running the import reconciler with the same (unchanged) source
content gives the same insert count and the same record fields as the
first run (surrogate ids may differ). -/
theorem import_idempotent (df : DataFrame) (s s1 : Store) (n : Nat)
    (h : carregarRun df s = (s1, .ok n)) :
    (carregarRun df s1).2 = .ok n ∧ (carregarRun df s1).1.fields = s1.fields := by
  obtain ⟨hcol, hf1, hn⟩ := carregarRun_ok_inv h
  obtain ⟨s2, hh1, hh2⟩ := carregarRun_ok df s1 hcol
  rw [hh1]
  constructor
  · show Except.ok df.rows.length = Except.ok n
    rw [hn]
  · show s2.fields = s1.fields
    exact hh2.trans hf1.symm

theorem import_idempotent_witness :
    (carregarRun dfSample ⟨[⟨1, "Mouse", 7, "Periféricos"⟩, ⟨2, "3", 0, "X"⟩]⟩).2 =
        .ok 2 ∧
      (carregarRun dfSample ⟨[⟨1, "Mouse", 7, "Periféricos"⟩, ⟨2, "3", 0, "X"⟩]⟩).1.fields =
        (⟨[⟨1, "Mouse", 7, "Periféricos"⟩, ⟨2, "3", 0, "X"⟩]⟩ : Store).fields := by
  have h : carregarRun dfSample ⟨[]⟩ =
      (⟨[⟨1, "Mouse", 7, "Periféricos"⟩, ⟨2, "3", 0, "X"⟩]⟩, .ok 2) := by rfl
  exact import_idempotent dfSample ⟨[]⟩
    ⟨[⟨1, "Mouse", 7, "Periféricos"⟩, ⟨2, "3", 0, "X"⟩]⟩ 2 h

end GestaoVendas
